import Mathlib

/-!
Shallow embedding of the go-smartme-client library (package `smartme`):
`client.go` (client construction and request/response pipeline),
`options.go` (functional options), `models.go` (data-transfer shapes).

Go standard-library behaviour the client depends on is modelled explicitly:
* `net/url` parsing and reference resolution (`parseURL`, `resolveReference`,
  `resolvePath`) — a faithful model of `url.Parse`/`URL.ResolveReference`
  for URLs without percent-escapes; parse failures modelled are the ones
  relevant here (control characters, missing protocol scheme).
* `time.Time.Format(time.RFC3339)` (`formatRFC3339`) over a calendar-field
  record `GoTime`.
* The HTTP transport is a parameter (`Transport`): a function from the built
  request to either a transport-level failure or a response.  JSON decoding
  (`encoding/json`) is likewise a parameter of each operation.
* `context.Context` is modelled by the state it has at the moment the
  pipeline observes it: whether its done channel is closed and its `Err()`.

Operations thread the `Client` value through explicitly and return it, so
that (absence of) mutation of the client is a provable statement.
-/

namespace SmartMe

/-! ## Character and list utilities -/

/-- ASCII control character (C0 controls and DEL), the characters
`net/url.Parse` rejects inside a URL. -/
def isCtl (c : Char) : Bool := c.toNat < 32 || c.toNat == 127

def isAlphaChar (c : Char) : Bool :=
  ('a' ≤ c && c ≤ 'z') || ('A' ≤ c && c ≤ 'Z')

/-- The extra characters allowed in a URL scheme after the first
(digits, `+`, `-`, `.`), as in `net/url.getScheme`. -/
def isSchemeExtraChar (c : Char) : Bool :=
  ('0' ≤ c && c ≤ '9') || c == '+' || c == '-' || c == '.'

/-- Split a character list at the first occurrence of `c`
(model of `strings.Cut`); the separator is dropped.  When `c` does not
occur, the second component is empty. -/
def cutList (c : Char) : List Char → List Char × List Char
  | [] => ([], [])
  | x :: xs =>
    if x = c then ([], xs)
    else
      let r := cutList c xs
      (x :: r.1, r.2)

/-- Split a character list on every occurrence of `c` (model of
`strings.Split`); always returns at least one (possibly empty) segment. -/
def splitOnChar (c : Char) : List Char → List (List Char)
  | [] => [[]]
  | x :: xs =>
    match splitOnChar c xs with
    | [] => [[]]
    | s :: ss => if x = c then [] :: s :: ss else (x :: s) :: ss

/-- Everything up to and including the last `/` of the list; empty when no
`/` occurs (model of `base[:strings.LastIndex(base, "/")+1]`). -/
def takeToLastSlash (l : List Char) : List Char :=
  (l.reverse.dropWhile (fun ch => ch ≠ '/')).reverse

/-! ## Decimal rendering and RFC 3339 formatting (model of Go `time`) -/

/-- Decimal digit character; callers only apply it to `n < 10`. -/
def digitChar : Nat → Char
  | 0 => '0' | 1 => '1' | 2 => '2' | 3 => '3' | 4 => '4'
  | 5 => '5' | 6 => '6' | 7 => '7' | 8 => '8' | 9 => '9'
  | _ => '0'

/-- Fuel-driven decimal rendering of a natural number (least significant
digit last).  `fuel = n + 1` always suffices. -/
def natDecAux : Nat → Nat → List Char
  | 0, _ => []
  | fuel + 1, n =>
    if n < 10 then [digitChar n]
    else natDecAux fuel (n / 10) ++ [digitChar (n % 10)]

/-- Decimal rendering of a natural number, model of Go `%d` for
non-negative values. -/
def natDec (n : Nat) : String := ⟨natDecAux (n + 1) n⟩

/-- Zero-pad to two digits, as Go layout `04`/`15`-style fields do. -/
def pad2 (n : Nat) : String := if n < 10 then "0" ++ natDec n else natDec n

/-- Zero-pad to four digits, as the Go layout year field `2006` does for
common-era years. -/
def pad4 (n : Nat) : String :=
  if n < 10 then "000" ++ natDec n
  else if n < 100 then "00" ++ natDec n
  else if n < 1000 then "0" ++ natDec n
  else natDec n

/-- Calendar fields of a Go `time.Time` as far as `Format(time.RFC3339)`
reads them; `offMin` is the zone offset east of UTC in minutes. -/
structure GoTime where
  year : Nat
  month : Nat
  day : Nat
  hour : Nat
  minute : Nat
  second : Nat
  offMin : Int
  deriving DecidableEq

/-- The Go zero `time.Time`: January 1, year 1, 00:00:00 UTC. -/
def zeroGoTime : GoTime := ⟨1, 1, 1, 0, 0, 0, 0⟩

/-- Zone suffix of the layout `Z07:00`: `Z` for UTC, otherwise a signed
`hh:mm` offset. -/
def tzSuffix (offMin : Int) : String :=
  if offMin = 0 then "Z"
  else
    (if offMin < 0 then "-" else "+")
      ++ pad2 (offMin.natAbs / 60) ++ ":" ++ pad2 (offMin.natAbs % 60)

/-- Model of `t.Format(time.RFC3339)`, layout `2006-01-02T15:04:05Z07:00`. -/
def formatRFC3339 (t : GoTime) : String :=
  pad4 t.year ++ "-" ++ pad2 t.month ++ "-" ++ pad2 t.day
    ++ "T" ++ pad2 t.hour ++ ":" ++ pad2 t.minute ++ ":" ++ pad2 t.second
    ++ tzSuffix t.offMin

/-! ## Model of `net/url` -/

/-- The components of a parsed URL that this client reads
(`Scheme`, `Host`, `Path`, `RawQuery`, `Fragment`). -/
structure GoURL where
  scheme : String
  host : String
  path : String
  query : String
  fragment : String
  deriving DecidableEq

/-- Result of scheme detection, as in `net/url.getScheme`:
`err` is the "missing protocol scheme" error, `noScheme` leaves the
input untouched, `scheme` splits it at the first `:`. -/
inductive SchemeRes where
  | err : SchemeRes
  | noScheme : SchemeRes
  | scheme (sch rest : List Char) : SchemeRes

/-- Model of `net/url.getScheme`: scan for `letter (letter|digit|+|-|.)* :`;
a `:` with nothing before it is an error; any other character before a `:`
means the input has no scheme. -/
def getScheme : List Char → List Char → SchemeRes
  | _, [] => .noScheme
  | acc, ch :: rest =>
    if isAlphaChar ch then getScheme (acc ++ [ch]) rest
    else if isSchemeExtraChar ch then
      if acc.isEmpty then .noScheme else getScheme (acc ++ [ch]) rest
    else if ch = ':' then
      if acc.isEmpty then .err else .scheme acc rest
    else .noScheme

/-- Whether the rest of the URL begins with an authority (`//` but not
`///`), as in `net/url.Parse`. -/
def hasAuthority (l : List Char) : Bool :=
  match l with
  | a :: b :: rest =>
    (a == '/') && (b == '/')
      && !(match rest with | c :: _ => c == '/' | [] => false)
  | _ => false

/-- Assemble a `GoURL` from scheme, the part after the scheme with the
fragment already removed, and the fragment: split the query at the first
`?`, then split off an authority when present. -/
def assembleURL (scheme : String) (rest frag : List Char) : GoURL :=
  let cutQ := cutList '?' rest
  if hasAuthority cutQ.1 then
    let after := cutQ.1.drop 2
    { scheme := scheme
      host := ⟨after.takeWhile (fun ch => ch ≠ '/')⟩
      path := ⟨after.dropWhile (fun ch => ch ≠ '/')⟩
      query := ⟨cutQ.2⟩
      fragment := ⟨frag⟩ }
  else
    { scheme := scheme, host := "", path := ⟨cutQ.1⟩
      query := ⟨cutQ.2⟩, fragment := ⟨frag⟩ }

/-- Model of `net/url.Parse` (for URLs without percent-escapes): reject
control characters, split the fragment at the first `#`, detect the
scheme, then assemble the components. -/
def parseURL (s : String) : Except String GoURL :=
  if s.data.any isCtl then .error "net/url: invalid control character in URL"
  else
    let cutF := cutList '#' s.data
    match getScheme [] cutF.1 with
    | .err => .error "missing protocol scheme"
    | .noScheme => .ok (assembleURL "" cutF.1 cutF.2)
    | .scheme sch rest => .ok (assembleURL ⟨sch.map Char.toLower⟩ rest cutF.2)

/-- Dot-segment processing of `net/url.resolvePath`: `.` segments are
dropped, `..` pops the last kept segment, others are appended. -/
def resolveSegs : List (List Char) → List (List Char) → List (List Char)
  | out, [] => out
  | out, seg :: rest =>
    if seg = ['.'] then resolveSegs out rest
    else if seg = ['.', '.'] then resolveSegs out.dropLast rest
    else resolveSegs (out ++ [seg]) rest

/-- Model of `net/url.resolvePath`: merge `ref` onto `base` (RFC 3986
section 5.3 merge), then remove dot segments; the result always starts
with `/`. -/
def resolvePath (base ref : List Char) : List Char :=
  let full :=
    if ref.isEmpty then base
    else if ref.head? = some '/' then ref
    else takeToLastSlash base ++ ref
  if full.isEmpty then []
  else
    let elems := splitOnChar '/' full
    let out := resolveSegs [] elems
    let r0 := '/' :: List.intercalate ['/'] out
    let lastSeg := elems.getLastD []
    let r1 := if lastSeg = ['.'] || lastSeg = ['.', '.'] then r0 ++ ['/'] else r0
    match r1 with
    | c0 :: c1 :: t => if c1 = '/' then c1 :: t else c0 :: c1 :: t
    | r => r

/-- Model of `url.URL.ResolveReference` for the shapes this client
produces: an absolute reference wins outright; otherwise authority and
scheme come from the base and the reference's path is resolved against
the base path; query and fragment come from the reference (except for an
empty reference, which keeps the base's query). -/
def resolveReference (base ref : GoURL) : GoURL :=
  if ref.scheme ≠ "" then
    { ref with path := ⟨resolvePath ref.path.data []⟩ }
  else if ref.host ≠ "" then
    { scheme := base.scheme, host := ref.host
      path := ⟨resolvePath ref.path.data []⟩
      query := ref.query, fragment := ref.fragment }
  else if ref.path = "" ∧ ref.query = "" then
    { base with fragment := ref.fragment }
  else
    { scheme := base.scheme, host := base.host
      path := ⟨resolvePath base.path.data ref.path.data⟩
      query := ref.query, fragment := ref.fragment }

example :
    parseURL "https://api.smart-me.com/"
      = .ok ⟨"https", "api.smart-me.com", "/", "", ""⟩ := rfl

example : parseURL ":" = .error "missing protocol scheme" := rfl

example :
    parseURL "api/Values/x?y=1"
      = .ok ⟨"", "", "api/Values/x", "y=1", ""⟩ := rfl

example :
    resolveReference ⟨"https", "h", "/", "", ""⟩ ⟨"", "", "api/Devices", "", ""⟩
      = ⟨"https", "h", "/api/Devices", "", ""⟩ := rfl

/-! ## Data model (`models.go`)

The enumeration types are `int32` aliases in the source; their named
constants are plain integer literals not used anywhere in the pipeline,
so they are embedded as `Int` aliases. -/

abbrev MeterEnergyType := Int
abbrev MeterSubType := Int
abbrev MeterFamilyType := Int
abbrev ChargeStationState := Int

/-- Structure `Device` (models.go): a flat record of optional fields; Go
pointer-to-scalar fields become `Option`. -/
structure Device where
  id : Option String := none
  name : Option String := none
  serial : Option Int := none
  deviceEnergyType : Option MeterEnergyType := none
  meterSubType : Option MeterSubType := none
  familyType : Option MeterFamilyType := none
  activePower : Option Float := none
  activePowerL1 : Option Float := none
  activePowerL2 : Option Float := none
  activePowerL3 : Option Float := none
  activePowerUnit : Option String := none
  counterReading : Option Float := none
  counterReadingUnit : Option String := none
  counterReadingT1 : Option Float := none
  counterReadingT2 : Option Float := none
  counterReadingT3 : Option Float := none
  counterReadingT4 : Option Float := none
  counterReadingImport : Option Float := none
  counterReadingExport : Option Float := none
  switchOn : Option Bool := none
  switchPhaseL10n : Option Bool := none
  switchPhaseL20n : Option Bool := none
  switchPhaseL30n : Option Bool := none
  voltage : Option Float := none
  voltageL1 : Option Float := none
  voltageL2 : Option Float := none
  voltageL3 : Option Float := none
  current : Option Float := none
  currentL1 : Option Float := none
  currentL2 : Option Float := none
  currentL3 : Option Float := none
  powerFactor : Option Float := none
  powerFactorL1 : Option Float := none
  powerFactorL2 : Option Float := none
  powerFactorL3 : Option Float := none
  temperature : Option Float := none
  activeTariff : Option Int := none
  digitalOutput1 : Option Bool := none
  digitalOutput2 : Option Bool := none
  analogOutput1 : Option Int := none
  analogOutput2 : Option Int := none
  digitalInput1 : Option Bool := none
  digitalInput2 : Option Bool := none
  valueDate : Option String := none
  additionalMeterSerialNumber : Option String := none
  flowRate : Option Float := none
  chargeStationState : Option ChargeStationState := none

/-- Structure `ObisValue` (models.go). -/
structure ObisValue where
  obis : String
  value : Float

/-- Structure `DeviceValues` (models.go). -/
structure DeviceValues where
  deviceID : String
  date : GoTime
  values : List ObisValue

/-- Go zero value of `DeviceValues`, the state of `var deviceValues
DeviceValues` before decoding. -/
def zeroDeviceValues : DeviceValues := ⟨"", zeroGoTime, []⟩

/-- Structure `Value` (models.go). -/
structure Value where
  date : GoTime
  value : Float

/-- Go zero value of `Value`, the state of `var value Value` before
decoding. -/
def zeroValue : Value := ⟨zeroGoTime, 0.0⟩

/-! ## Client construction (`client.go` constants, `Client`, `NewClient`)
and functional options (`options.go`) -/

/-- Durations are in nanoseconds, as Go `time.Duration`. -/
def timeSecond : Nat := 1000000000

def defaultBaseURL : String := "https://api.smart-me.com/"

def defaultTimeout : Nat := 10 * timeSecond

/-- The part of Go `http.Client` this library touches: its `Timeout`. -/
structure HTTPClient where
  timeout : Nat
  deriving DecidableEq

/-- Structure `Client` (client.go): `httpClient` is `none` while the Go pointer is
`nil`. -/
structure Client where
  httpClient : Option HTTPClient
  baseURL : GoURL
  username : String
  password : String
  deriving DecidableEq

/-- Model of `baseURL, _ := url.Parse(defaultBaseURL)` — the parse error is
discarded in the source; the parse succeeds. -/
def defaultBaseURLParsed : GoURL :=
  match parseURL defaultBaseURL with
  | .ok u => u
  | .error _ => ⟨"", "", "", "", ""⟩

example :
    defaultBaseURLParsed = ⟨"https", "api.smart-me.com", "/", "", ""⟩ := rfl

/-- The three functional options of `options.go`. -/
inductive COption where
  | withHTTPClient (hc : HTTPClient)
  | withBaseURL (s : String)
  | withTimeout (t : Nat)

/-- Effect of one option on the client (the closures returned by
`WithHTTPClient`, `WithBaseURL`, `WithTimeout`).  `WithBaseURL` keeps the
previous base URL when the string fails to parse; `WithTimeout` first
creates a zero-valued `http.Client` when none is present. -/
def applyOption (c : Client) (o : COption) : Client :=
  match o with
  | .withHTTPClient hc => { c with httpClient := some hc }
  | .withBaseURL s =>
    match parseURL s with
    | .ok u => { c with baseURL := u }
    | .error _ => c
  | .withTimeout t =>
    let hc := c.httpClient.getD { timeout := 0 }
    { c with httpClient := some { hc with timeout := t } }

/-- The client literal built inside `NewClient` before options run. -/
def initClient (username password : String) : Client :=
  { httpClient := none, baseURL := defaultBaseURLParsed
    username := username, password := password }

/-- Function `NewClient` (client.go): reject an empty username, apply the options
in order, then install the default transport when none was configured. -/
def NewClient (username password : String) (opts : List COption) :
    Except String Client :=
  if username = "" then .error "username must not be empty"
  else
    let c := opts.foldl applyOption (initClient username password)
    let c :=
      if c.httpClient.isNone then
        { c with httpClient := some { timeout := defaultTimeout } }
      else c
    .ok c

/-! ## Request/response pipeline (`client.go`) -/

/-- State of a `context.Context` at the moment the pipeline observes it:
whether `Done()` is closed, and what `Err()` returns then. -/
structure GoContext where
  done : Bool
  ctxErr : String

/-- The parts of Go `http.Request` this library writes.  `basicAuth`
models the `Authorization` header installed by `req.SetBasicAuth`. -/
structure HTTPRequest where
  method : String
  url : GoURL
  headers : List (String × String)
  basicAuth : Option (String × String)
  body : Option String
  ctx : GoContext

/-- Model of `http.Header.Set`: replace the values of the key, or append it. -/
def setHeader (hs : List (String × String)) (k v : String) :
    List (String × String) :=
  if hs.any (fun p => p.1 = k) then
    hs.map (fun p => if p.1 = k then (k, v) else p)
  else hs ++ [(k, v)]

/-- Model of `http.Header.Get`. -/
def getHeader (hs : List (String × String)) (k : String) : Option String :=
  (hs.find? (fun p => p.1 = k)).map (fun p => p.2)

/-- Method `newRequest` (client.go): parse the path, resolve it against the base
URL, build the request, set Basic Auth and the `Accept` header, and set
`Content-Type` only when a body is present.  The `Client` is returned
unchanged alongside the result. -/
def newRequest (c : Client) (ctx : GoContext) (method path : String)
    (body : Option String) : Except String HTTPRequest × Client :=
  match parseURL path with
  | .error e => (.error ("parse \"" ++ path ++ "\": " ++ e), c)
  | .ok rel =>
    let fullURL := resolveReference c.baseURL rel
    let req : HTTPRequest :=
      { method := method, url := fullURL, headers := []
        basicAuth := none, body := body, ctx := ctx }
    let req := { req with basicAuth := some (c.username, c.password) }
    let req := { req with headers := setHeader req.headers "Accept" "application/json" }
    let req :=
      if body.isSome then
        { req with headers := setHeader req.headers "Content-Type" "application/json" }
      else req
    (.ok req, c)

/-- The parts of Go `http.Response` the pipeline reads: `StatusCode`,
`Status` (e.g. `"500 Internal Server Error"`), and the body. -/
structure HTTPResponse where
  statusCode : Nat
  status : String
  body : String

/-- Outcome of `httpClient.Do`: a transport-level failure (its error
message) or a response. -/
inductive TransportResult where
  | failure (err : String)
  | success (resp : HTTPResponse)

/-- The network behaviour of the configured `http.Client`. -/
def Transport := HTTPRequest → TransportResult

/-- Method `do` (client.go; named `clientDo` because `do` is reserved): execute
the request; on a transport failure return the context's error when the
context is done, otherwise the transport error; classify status ≥ 400 as
an API error without touching the body; otherwise decode the body when a
destination was supplied.  `decode` models `json.NewDecoder(..).Decode`
into the destination `v`; `none` models `v == nil`.  The `Client` is
returned unchanged alongside the result. -/
def clientDo {α : Type} (c : Client) (req : HTTPRequest)
    (transport : Transport) (decode : Option (String → Except String α)) :
    Except String (Option α) × Client :=
  match transport req with
  | .failure err =>
    if req.ctx.done then (.error req.ctx.ctxErr, c) else (.error err, c)
  | .success resp =>
    if resp.statusCode ≥ 400 then
      (.error ("API error: " ++ resp.status ++ " (status code: "
        ++ natDec resp.statusCode ++ ")"), c)
    else
      match decode with
      | none => (.ok none, c)
      | some d =>
        match d resp.body with
        | .error e => (.error ("error decoding response: " ++ e), c)
        | .ok x => (.ok (some x), c)

/-! ## The four API operations (`client.go`).

Each takes the transport and its JSON decoder as parameters and returns
the (unchanged) client next to the result, mirroring the Go methods on
`*Client`.  A `.ok none` from `clientDo` cannot occur (a destination is
always supplied); in that case the Go locals keep their zero values, and
the embedding does the same. -/

def getDevicesPath : String := "api/Devices"

def getValuesPath (deviceID : String) : String := "api/Values/" ++ deviceID

def getValuesInPastPath (deviceID : String) (date : GoTime) : String :=
  "api/ValuesInPast/" ++ deviceID ++ "?date=" ++ formatRFC3339 date

def getValuesInPastMultiplePath (deviceID : String)
    (startDate endDate : GoTime) : String :=
  "api/ValuesInPastMultiple/" ++ deviceID
    ++ "?startDate=" ++ formatRFC3339 startDate
    ++ "&endDate=" ++ formatRFC3339 endDate

/-- Method `GetDevices`: `GET api/Devices`. -/
def GetDevices (c : Client) (ctx : GoContext) (transport : Transport)
    (decode : String → Except String (List Device)) :
    Except String (List Device) × Client :=
  match newRequest c ctx "GET" getDevicesPath none with
  | (.error e, c') => (.error ("failed to create request: " ++ e), c')
  | (.ok req, c') =>
    match clientDo c' req transport (some decode) with
    | (.error e, c'') => (.error e, c'')
    | (.ok v, c'') => (.ok (v.getD []), c'')

/-- Method `GetValues`: `GET api/Values/{id}` after rejecting an empty id. -/
def GetValues (c : Client) (ctx : GoContext) (deviceID : String)
    (transport : Transport) (decode : String → Except String DeviceValues) :
    Except String DeviceValues × Client :=
  if deviceID = "" then (.error "deviceID must not be empty", c)
  else
    match newRequest c ctx "GET" (getValuesPath deviceID) none with
    | (.error e, c') => (.error ("failed to create request: " ++ e), c')
    | (.ok req, c') =>
      match clientDo c' req transport (some decode) with
      | (.error e, c'') => (.error e, c'')
      | (.ok v, c'') => (.ok (v.getD zeroDeviceValues), c'')

/-- Method `GetValuesInPast`: `GET api/ValuesInPast/{id}?date={date}` after
rejecting an empty id. -/
def GetValuesInPast (c : Client) (ctx : GoContext) (deviceID : String)
    (date : GoTime) (transport : Transport)
    (decode : String → Except String Value) :
    Except String Value × Client :=
  if deviceID = "" then (.error "deviceID must not be empty", c)
  else
    match newRequest c ctx "GET" (getValuesInPastPath deviceID date) none with
    | (.error e, c') => (.error ("failed to create request: " ++ e), c')
    | (.ok req, c') =>
      match clientDo c' req transport (some decode) with
      | (.error e, c'') => (.error e, c'')
      | (.ok v, c'') => (.ok (v.getD zeroValue), c'')

/-- Method `GetValuesInPastMultiple`:
`GET api/ValuesInPastMultiple/{id}?startDate={s}&endDate={e}` after
rejecting an empty id. -/
def GetValuesInPastMultiple (c : Client) (ctx : GoContext)
    (deviceID : String) (startDate endDate : GoTime)
    (transport : Transport) (decode : String → Except String (List Value)) :
    Except String (List Value) × Client :=
  if deviceID = "" then (.error "deviceID must not be empty", c)
  else
    match newRequest c ctx "GET"
        (getValuesInPastMultiplePath deviceID startDate endDate) none with
    | (.error e, c') => (.error ("failed to create request: " ++ e), c')
    | (.ok req, c') =>
      match clientDo c' req transport (some decode) with
      | (.error e, c'') => (.error e, c'')
      | (.ok v, c'') => (.ok (v.getD []), c'')

/-! ## Helper lemmas -/

/-- Characters a device identifier may contain for the request URL to keep
the intended shape: no control characters (which make `url.Parse` fail)
and no `?` or `#` (which start the query/fragment). -/
def idSafe (c : Char) : Bool := !(isCtl c) && c != '?' && c != '#'

/-- Characters that stay inert inside an already-started query string:
no control characters and no `#`. -/
def noCtlHash (c : Char) : Bool := !(isCtl c) && c != '#'

theorem idSafe_spec {c : Char} (h : idSafe c = true) :
    isCtl c = false ∧ c ≠ '?' ∧ c ≠ '#' := by
  simp only [idSafe, Bool.and_eq_true, bne_iff_ne, Bool.not_eq_true'] at h
  exact ⟨h.1.1, h.1.2, h.2⟩

theorem noCtlHash_spec {c : Char} (h : noCtlHash c = true) :
    isCtl c = false ∧ c ≠ '#' := by
  simp only [noCtlHash, Bool.and_eq_true, bne_iff_ne, Bool.not_eq_true'] at h
  exact ⟨h.1, h.2⟩

theorem cutList_of_not_mem {c : Char} : ∀ {l : List Char}, c ∉ l →
    cutList c l = (l, []) := by
  intro l
  induction l with
  | nil => intro _; rfl
  | cons x xs ih =>
    intro h
    have hx : ¬ x = c := fun he => h (he ▸ List.mem_cons_self x xs)
    have hxs : c ∉ xs := fun hm => h (List.mem_cons_of_mem x hm)
    simp [cutList, hx, ih hxs]

theorem cutList_append {c : Char} : ∀ {a : List Char} (b : List Char),
    c ∉ a → cutList c (a ++ c :: b) = (a, b) := by
  intro a
  induction a with
  | nil => intro b _; simp [cutList]
  | cons x xs ih =>
    intro b h
    have hx : ¬ x = c := fun he => h (he ▸ List.mem_cons_self x xs)
    have hxs : c ∉ xs := fun hm => h (List.mem_cons_of_mem x hm)
    simp [cutList, hx, ih b hxs]

theorem getScheme_api (l : List Char) (acc : List Char) :
    getScheme acc ('/' :: l) = .noScheme := by
  simp [getScheme, isAlphaChar, isSchemeExtraChar]

theorem hasAuthority_nonslash {x : Char} (l : List Char) (h : x ≠ '/') :
    hasAuthority (x :: l) = false := by
  match l with
  | [] => rfl
  | y :: t => simp [hasAuthority, h]

theorem all_idSafe_parts {l : List Char} (h : l.all idSafe = true) :
    l.any isCtl = false ∧ '?' ∉ l ∧ '#' ∉ l := by
  rw [List.all_eq_true] at h
  refine ⟨?_, ?_, ?_⟩
  · rw [List.any_eq_false]
    intro x hx
    simp [(idSafe_spec (h x hx)).1]
  · intro hm
    exact (idSafe_spec (h _ hm)).2.1 rfl
  · intro hm
    exact (idSafe_spec (h _ hm)).2.2 rfl

theorem all_noCtlHash_parts {l : List Char} (h : l.all noCtlHash = true) :
    l.any isCtl = false ∧ '#' ∉ l := by
  rw [List.all_eq_true] at h
  refine ⟨?_, ?_⟩
  · rw [List.any_eq_false]
    intro x hx
    simp [(noCtlHash_spec (h x hx)).1]
  · intro hm
    exact (noCtlHash_spec (h _ hm)).2 rfl

theorem digitChar_noCtlHash (m : Nat) :
    noCtlHash (digitChar m) = true ∧ digitChar m ≠ '?' := by
  rcases m with _ | _ | _ | _ | _ | _ | _ | _ | _ | _ | m
  all_goals try decide
  show noCtlHash '0' = true ∧ '0' ≠ '?'
  decide

theorem natDecAux_safe : ∀ (fuel n : Nat) (c : Char),
    c ∈ natDecAux fuel n → noCtlHash c = true ∧ c ≠ '?' := by
  intro fuel
  induction fuel with
  | zero => intro n c h; simp [natDecAux] at h
  | succ f ih =>
    intro n c h
    rw [natDecAux] at h
    by_cases hn : n < 10
    · rw [if_pos hn] at h
      rcases List.mem_singleton.mp h with rfl
      exact digitChar_noCtlHash n
    · rw [if_neg hn] at h
      rcases List.mem_append.mp h with h1 | h2
      · exact ih _ c h1
      · rcases List.mem_singleton.mp h2 with rfl
        exact digitChar_noCtlHash (n % 10)

theorem string_safe_append {s t : String}
    (hs : ∀ c ∈ s.data, noCtlHash c = true ∧ c ≠ '?')
    (ht : ∀ c ∈ t.data, noCtlHash c = true ∧ c ≠ '?') :
    ∀ c ∈ (s ++ t).data, noCtlHash c = true ∧ c ≠ '?' := by
  intro c hc
  rw [String.data_append] at hc
  rcases List.mem_append.mp hc with h | h
  · exact hs c h
  · exact ht c h

theorem natDec_safe (n : Nat) :
    ∀ c ∈ (natDec n).data, noCtlHash c = true ∧ c ≠ '?' := by
  intro c hc
  exact natDecAux_safe _ _ c hc

theorem pad2_safe (n : Nat) :
    ∀ c ∈ (pad2 n).data, noCtlHash c = true ∧ c ≠ '?' := by
  unfold pad2
  split
  · exact string_safe_append (by decide) (natDec_safe n)
  · exact natDec_safe n

theorem pad4_safe (n : Nat) :
    ∀ c ∈ (pad4 n).data, noCtlHash c = true ∧ c ≠ '?' := by
  unfold pad4
  split
  · exact string_safe_append (by decide) (natDec_safe n)
  · split
    · exact string_safe_append (by decide) (natDec_safe n)
    · split
      · exact string_safe_append (by decide) (natDec_safe n)
      · exact natDec_safe n

theorem tzSuffix_safe (off : Int) :
    ∀ c ∈ (tzSuffix off).data, noCtlHash c = true ∧ c ≠ '?' := by
  unfold tzSuffix
  split
  · decide
  · refine string_safe_append (string_safe_append (string_safe_append ?_
      (pad2_safe _)) (by decide)) (pad2_safe _)
    split <;> decide

/-- Every character of an RFC 3339 timestamp rendering is inert in a URL:
not a control character, not `#`, not `?`. -/
theorem formatRFC3339_safe (t : GoTime) :
    ∀ c ∈ (formatRFC3339 t).data, noCtlHash c = true ∧ c ≠ '?' := by
  unfold formatRFC3339
  refine string_safe_append (string_safe_append (string_safe_append
    (string_safe_append (string_safe_append (string_safe_append
    (string_safe_append (string_safe_append (string_safe_append
    (string_safe_append (string_safe_append (pad4_safe _) (by decide))
    (pad2_safe _)) (by decide)) (pad2_safe _)) (by decide)) (pad2_safe _))
    (by decide)) (pad2_safe _)) (by decide)) (pad2_safe _)) (tzSuffix_safe _)

theorem getScheme_api4 (t : List Char) :
    getScheme [] ('a' :: 'p' :: 'i' :: '/' :: t) = .noScheme := rfl

/-- Behaviour of `parseURL` on a string that survives the control-character check,
has no fragment, no scheme and no authority: it is split into path and
query at the first `?`. -/
theorem parseURL_core (s : String)
    (hctl : s.data.any isCtl = false)
    (hhash : '#' ∉ s.data)
    (hscheme : getScheme [] s.data = .noScheme)
    (hauth : hasAuthority (cutList '?' s.data).1 = false) :
    parseURL s =
      .ok ⟨"", "", ⟨(cutList '?' s.data).1⟩, ⟨(cutList '?' s.data).2⟩, ""⟩ := by
  unfold parseURL
  rw [if_neg (by simp [hctl])]
  simp only [cutList_of_not_mem hhash, hscheme]
  unfold assembleURL
  rw [if_neg (by simp [hauth])]

/-- Behaviour of `parseURL` on `A ++ "?" ++ B` with an identifier-safe `A` of the form
`api/...` and a hash-free `B`: `A` becomes the path, `B` the raw query. -/
theorem parseURL_split (s : String) (A B : List Char)
    (hdata : s.data = A ++ '?' :: B)
    (hA : A.all idSafe = true)
    (hA4 : ∃ t, A = 'a' :: 'p' :: 'i' :: '/' :: t)
    (hB : B.all noCtlHash = true) :
    parseURL s = .ok ⟨"", "", ⟨A⟩, ⟨B⟩, ""⟩ := by
  obtain ⟨hctlA, hqA, hhA⟩ := all_idSafe_parts hA
  obtain ⟨hctlB, hhB⟩ := all_noCtlHash_parts hB
  have hcut : cutList '?' s.data = (A, B) := by
    rw [hdata]; exact cutList_append B hqA
  have hctl : s.data.any isCtl = false := by
    rw [hdata]
    simp only [List.any_append, List.any_cons, hctlA, hctlB, Bool.or_false,
      Bool.false_or]
    decide
  have hhash : '#' ∉ s.data := by
    rw [hdata]
    intro hm
    rcases List.mem_append.mp hm with h | h
    · exact hhA h
    · rcases List.mem_cons.mp h with h | h
      · cases h
      · exact hhB h
  have hscheme : getScheme [] s.data = .noScheme := by
    obtain ⟨t, ht⟩ := hA4
    rw [hdata, ht]
    exact getScheme_api4 _
  have hauth : hasAuthority (cutList '?' s.data).1 = false := by
    rw [hcut]
    obtain ⟨t, ht⟩ := hA4
    rw [ht]
    exact hasAuthority_nonslash _ (by decide)
  have hres := parseURL_core s hctl hhash hscheme hauth
  rw [hcut] at hres
  exact hres

/-- Behaviour of `parseURL` on a query-free identifier-safe path of the form `api/...`:
the whole string becomes the path. -/
theorem parseURL_nosplit (s : String) (A : List Char)
    (hdata : s.data = A)
    (hA : A.all idSafe = true)
    (hA4 : ∃ t, A = 'a' :: 'p' :: 'i' :: '/' :: t) :
    parseURL s = .ok ⟨"", "", ⟨A⟩, "", ""⟩ := by
  obtain ⟨hctlA, hqA, hhA⟩ := all_idSafe_parts hA
  have hcut : cutList '?' s.data = (A, []) := by
    rw [hdata]; exact cutList_of_not_mem hqA
  have hctl : s.data.any isCtl = false := by rw [hdata]; exact hctlA
  have hhash : '#' ∉ s.data := by rw [hdata]; exact hhA
  have hscheme : getScheme [] s.data = .noScheme := by
    obtain ⟨t, ht⟩ := hA4
    rw [hdata, ht]
    exact getScheme_api4 _
  have hauth : hasAuthority (cutList '?' s.data).1 = false := by
    rw [hcut]
    obtain ⟨t, ht⟩ := hA4
    rw [ht]
    exact hasAuthority_nonslash _ (by decide)
  have hres := parseURL_core s hctl hhash hscheme hauth
  rw [hcut] at hres
  exact hres

/-- The request `newRequest` builds for a relative, authority-free path
with a nonempty path component and no body. -/
theorem newRequest_build (c : Client) (ctx : GoContext) (method s : String)
    (u : GoURL) (hp : parseURL s = .ok u)
    (hscheme : u.scheme = "") (hhost : u.host = "") (hpath : u.path ≠ "") :
    newRequest c ctx method s none =
      (.ok { method := method
             url := ⟨c.baseURL.scheme, c.baseURL.host,
                     ⟨resolvePath c.baseURL.path.data u.path.data⟩,
                     u.query, u.fragment⟩
             headers := [("Accept", "application/json")]
             basicAuth := some (c.username, c.password)
             body := none, ctx := ctx }, c) := by
  unfold newRequest
  rw [hp]
  simp [hscheme, hhost, hpath, setHeader]
  unfold resolveReference
  simp [hscheme, hhost, hpath]

theorem formatRFC3339_all_noCtlHash (t : GoTime) :
    (formatRFC3339 t).data.all noCtlHash = true :=
  List.all_eq_true.mpr fun c hc => (formatRFC3339_safe t c hc).1

/-- The request `GetValues` builds for an identifier-safe device id. -/
theorem newRequest_getValues (c : Client) (ctx : GoContext) (dID : String)
    (h : dID.data.all idSafe = true) :
    newRequest c ctx "GET" (getValuesPath dID) none =
      (.ok { method := "GET"
             url := ⟨c.baseURL.scheme, c.baseURL.host,
                     ⟨resolvePath c.baseURL.path.data
                       ("api/Values/".data ++ dID.data)⟩, "", ""⟩
             headers := [("Accept", "application/json")]
             basicAuth := some (c.username, c.password)
             body := none, ctx := ctx }, c) := by
  have hp : parseURL (getValuesPath dID) =
      .ok ⟨"", "", ⟨"api/Values/".data ++ dID.data⟩, "", ""⟩ := by
    apply parseURL_nosplit
    · simp [getValuesPath, String.data_append]
    · rw [List.all_append, h]
      simp
      decide
    · exact ⟨"Values/".data ++ dID.data, rfl⟩
  exact newRequest_build c ctx "GET" (getValuesPath dID) _ hp rfl rfl
    (by simp [String.ext_iff])

/-- The request `GetValuesInPast` builds: the RFC 3339 date lands verbatim
in the raw query. -/
theorem newRequest_getValuesInPast (c : Client) (ctx : GoContext)
    (dID : String) (d : GoTime) (h : dID.data.all idSafe = true) :
    newRequest c ctx "GET" (getValuesInPastPath dID d) none =
      (.ok { method := "GET"
             url := ⟨c.baseURL.scheme, c.baseURL.host,
                     ⟨resolvePath c.baseURL.path.data
                       ("api/ValuesInPast/".data ++ dID.data)⟩,
                     "date=" ++ formatRFC3339 d, ""⟩
             headers := [("Accept", "application/json")]
             basicAuth := some (c.username, c.password)
             body := none, ctx := ctx }, c) := by
  have hp : parseURL (getValuesInPastPath dID d) =
      .ok ⟨"", "", ⟨"api/ValuesInPast/".data ++ dID.data⟩,
           ⟨"date=".data ++ (formatRFC3339 d).data⟩, ""⟩ := by
    apply parseURL_split
    · show (getValuesInPastPath dID d).data = _
      have hq : "?date=".data = '?' :: "date=".data := rfl
      simp [getValuesInPastPath, String.data_append, hq, List.append_assoc]
    · rw [List.all_append, h]
      simp
      decide
    · exact ⟨"ValuesInPast/".data ++ dID.data, rfl⟩
    · rw [List.all_append, formatRFC3339_all_noCtlHash]
      simp
      decide
  exact newRequest_build c ctx "GET" (getValuesInPastPath dID d) _ hp rfl rfl
    (by simp [String.ext_iff])

/-- The request `GetValuesInPastMultiple` builds: both RFC 3339 dates land
verbatim in the raw query. -/
theorem newRequest_getValuesInPastMultiple (c : Client) (ctx : GoContext)
    (dID : String) (sd ed : GoTime) (h : dID.data.all idSafe = true) :
    newRequest c ctx "GET" (getValuesInPastMultiplePath dID sd ed) none =
      (.ok { method := "GET"
             url := ⟨c.baseURL.scheme, c.baseURL.host,
                     ⟨resolvePath c.baseURL.path.data
                       ("api/ValuesInPastMultiple/".data ++ dID.data)⟩,
                     "startDate=" ++ formatRFC3339 sd ++ "&endDate="
                       ++ formatRFC3339 ed, ""⟩
             headers := [("Accept", "application/json")]
             basicAuth := some (c.username, c.password)
             body := none, ctx := ctx }, c) := by
  have hp : parseURL (getValuesInPastMultiplePath dID sd ed) =
      .ok ⟨"", "", ⟨"api/ValuesInPastMultiple/".data ++ dID.data⟩,
           ⟨"startDate=".data ++ (formatRFC3339 sd).data
             ++ "&endDate=".data ++ (formatRFC3339 ed).data⟩, ""⟩ := by
    apply parseURL_split
    · show (getValuesInPastMultiplePath dID sd ed).data = _
      have hq : "?startDate=".data = '?' :: "startDate=".data := rfl
      simp [getValuesInPastMultiplePath, String.data_append, hq,
        List.append_assoc]
    · rw [List.all_append, h]
      simp
      decide
    · exact ⟨"ValuesInPastMultiple/".data ++ dID.data, rfl⟩
    · simp only [List.all_append, formatRFC3339_all_noCtlHash]
      simp
      decide
  exact newRequest_build c ctx "GET"
    (getValuesInPastMultiplePath dID sd ed) _ hp rfl rfl
    (by simp [String.ext_iff])

/-- Behaviour of `clientDo` on a response with status ≥ 400: the formatted API error,
independent of any decoder. -/
theorem clientDo_apiError {α : Type} (c : Client) (req : HTTPRequest)
    (transport : Transport) (resp : HTTPResponse)
    (htr : transport req = .success resp) (h400 : 400 ≤ resp.statusCode)
    (decode : Option (String → Except String α)) :
    clientDo c req transport decode =
      (.error ("API error: " ++ resp.status ++ " (status code: "
        ++ natDec resp.statusCode ++ ")"), c) := by
  unfold clientDo
  simp [htr, h400]

/-- Behaviour of `clientDo` on a transport failure: the context error wins when the
context is done, otherwise the transport error surfaces as-is. -/
theorem clientDo_failure {α : Type} (c : Client) (req : HTTPRequest)
    (transport : Transport) (e : String)
    (htr : transport req = .failure e)
    (decode : Option (String → Except String α)) :
    clientDo c req transport decode =
      (.error (if req.ctx.done then req.ctx.ctxErr else e), c) := by
  unfold clientDo
  cases hd : req.ctx.done <;> simp [htr, hd]

/-- Invariant: `clientDo` never changes the client. -/
theorem clientDo_snd {α : Type} (c : Client) (req : HTTPRequest)
    (transport : Transport) (decode : Option (String → Except String α)) :
    (clientDo c req transport decode).2 = c := by
  unfold clientDo
  split
  · split <;> rfl
  · split
    · rfl
    · split
      · rfl
      · split <;> rfl

/-- Invariant: `newRequest` never changes the client. -/
theorem newRequest_snd (c : Client) (ctx : GoContext) (method s : String)
    (body : Option String) :
    (newRequest c ctx method s body).2 = c := by
  unfold newRequest
  rcases h : parseURL s with e | rel <;> simp

/-! ## Witness fixtures -/

/-- A concrete client for witnesses. -/
def cW : Client :=
  ⟨some ⟨5000000000⟩, ⟨"https", "h.example", "/", "", ""⟩, "u", "p"⟩

/-- A live (not cancelled) context. -/
def ctxW : GoContext := ⟨false, ""⟩

/-- A cancelled context. -/
def ctxDoneW : GoContext := ⟨true, "context canceled"⟩

/-- A concrete 500 response. -/
def respW : HTTPResponse :=
  ⟨500, "500 Internal Server Error", "Internal Server Error"⟩

/-- A concrete timestamp. -/
def tW : GoTime := ⟨2025, 1, 2, 3, 4, 5, 0⟩

/-! ## Claims -/

/-- C1: every response with status code ≥ 400 received by any of the four
API operations yields an error whose message is exactly
`API error: <status text> (status code: <status code>)` (Go's `Status`
field is the status text, e.g. `"500 Internal Server Error"`), and the
result does not depend on the JSON decoder — no decoding is attempted. -/
theorem C1_api_error_format (c : Client) (ctx : GoContext)
    (resp : HTTPResponse) (dID : String) (d sd ed : GoTime)
    (decD : String → Except String (List Device))
    (decV : String → Except String DeviceValues)
    (decP : String → Except String Value)
    (decM : String → Except String (List Value))
    (h400 : 400 ≤ resp.statusCode)
    (hne : dID ≠ "")
    (hsafe : dID.data.all idSafe = true) :
    (GetDevices c ctx (fun _ => .success resp) decD).1
        = .error ("API error: " ++ resp.status ++ " (status code: "
            ++ natDec resp.statusCode ++ ")")
    ∧ (GetValues c ctx dID (fun _ => .success resp) decV).1
        = .error ("API error: " ++ resp.status ++ " (status code: "
            ++ natDec resp.statusCode ++ ")")
    ∧ (GetValuesInPast c ctx dID d (fun _ => .success resp) decP).1
        = .error ("API error: " ++ resp.status ++ " (status code: "
            ++ natDec resp.statusCode ++ ")")
    ∧ (GetValuesInPastMultiple c ctx dID sd ed (fun _ => .success resp)
        decM).1
        = .error ("API error: " ++ resp.status ++ " (status code: "
            ++ natDec resp.statusCode ++ ")") := by
  refine ⟨?_, ?_, ?_, ?_⟩
  · have h1 := newRequest_build c ctx "GET" getDevicesPath
      ⟨"", "", "api/Devices", "", ""⟩ rfl rfl rfl (by decide)
    simp only [GetDevices, h1]
    rw [clientDo_apiError _ _ _ resp rfl h400]
  · have h1 := newRequest_getValues c ctx dID hsafe
    simp only [GetValues, if_neg hne, h1]
    rw [clientDo_apiError _ _ _ resp rfl h400]
  · have h1 := newRequest_getValuesInPast c ctx dID d hsafe
    simp only [GetValuesInPast, if_neg hne, h1]
    rw [clientDo_apiError _ _ _ resp rfl h400]
  · have h1 := newRequest_getValuesInPastMultiple c ctx dID sd ed hsafe
    simp only [GetValuesInPastMultiple, if_neg hne, h1]
    rw [clientDo_apiError _ _ _ resp rfl h400]

theorem C1_api_error_format_witness :
    (400 ≤ respW.statusCode ∧ "dev1" ≠ ""
      ∧ "dev1".data.all idSafe = true)
    ∧ (GetDevices cW ctxW (fun _ => .success respW)
        (fun _ => .error "never")).1
      = .error "API error: 500 Internal Server Error (status code: 500)" := by
  refine ⟨⟨by decide, by decide, by decide⟩, ?_⟩
  exact (C1_api_error_format cW ctxW respW "dev1" tW tW tW
    (fun _ => .error "never") (fun _ => .error "never")
    (fun _ => .error "never") (fun _ => .error "never")
    (by decide) (by decide) (by decide)).1

/-- C2: the three device-scoped operations reject an empty device
identifier with the local validation error, for every transport (so no
request is built and the transport is never invoked), and return the
client unchanged. -/
theorem C2_empty_device_id (c : Client) (ctx : GoContext) (d sd ed : GoTime)
    (t1 t2 t3 : Transport)
    (decV : String → Except String DeviceValues)
    (decP : String → Except String Value)
    (decM : String → Except String (List Value)) :
    GetValues c ctx "" t1 decV = (.error "deviceID must not be empty", c)
    ∧ GetValuesInPast c ctx "" d t2 decP
        = (.error "deviceID must not be empty", c)
    ∧ GetValuesInPastMultiple c ctx "" sd ed t3 decM
        = (.error "deviceID must not be empty", c) :=
  ⟨rfl, rfl, rfl⟩

/-- C3: `NewClient` fails — with exactly the validation error — if and
only if the username is empty; with a non-empty username (any password,
any options) it returns a client. -/
theorem C3_username_validation (u p : String) (opts : List COption) :
    (NewClient u p opts = .error "username must not be empty" ↔ u = "")
    ∧ ((∃ c, NewClient u p opts = .ok c) ↔ u ≠ "") := by
  by_cases h : u = "" <;> simp [NewClient, h]

/-- C4: the historical-query paths are built by raw interpolation as
`api/ValuesInPast/{id}?date=<RFC3339>` and
`api/ValuesInPastMultiple/{id}?startDate=<RFC3339>&endDate=<RFC3339>`,
and for an identifier free of URL metacharacters the serialized
timestamps appear verbatim as the raw query of the built request. -/
theorem C4_rfc3339_query (c : Client) (ctx : GoContext) (dID : String)
    (d sd ed : GoTime) (hsafe : dID.data.all idSafe = true) :
    getValuesInPastPath dID d
        = "api/ValuesInPast/" ++ dID ++ "?date=" ++ formatRFC3339 d
    ∧ getValuesInPastMultiplePath dID sd ed
        = "api/ValuesInPastMultiple/" ++ dID ++ "?startDate="
            ++ formatRFC3339 sd ++ "&endDate=" ++ formatRFC3339 ed
    ∧ (∃ req, (newRequest c ctx "GET" (getValuesInPastPath dID d) none).1
          = .ok req ∧ req.url.query = "date=" ++ formatRFC3339 d)
    ∧ (∃ req, (newRequest c ctx "GET"
            (getValuesInPastMultiplePath dID sd ed) none).1
          = .ok req ∧ req.url.query = "startDate=" ++ formatRFC3339 sd
              ++ "&endDate=" ++ formatRFC3339 ed) := by
  refine ⟨rfl, rfl, ?_, ?_⟩
  · have h := newRequest_getValuesInPast c ctx dID d hsafe
    exact ⟨_, by rw [h], rfl⟩
  · have h := newRequest_getValuesInPastMultiple c ctx dID sd ed hsafe
    exact ⟨_, by rw [h], rfl⟩

theorem C4_rfc3339_query_witness :
    "dev1".data.all idSafe = true
    ∧ (∃ req, (newRequest cW ctxW "GET" (getValuesInPastPath "dev1" tW)
          none).1 = .ok req
        ∧ req.url.query = "date=" ++ formatRFC3339 tW) := by
  refine ⟨by decide, ?_⟩
  exact (C4_rfc3339_query cW ctxW "dev1" tW tW tW (by decide)).2.2.1

/-- C5: every request built by `newRequest` carries Basic Auth with
exactly the stored username and password, always has `Accept:
application/json`, and has `Content-Type: application/json` exactly when
a body is present. -/
theorem C5_request_headers (c : Client) (ctx : GoContext)
    (method path : String) (body : Option String) (req : HTTPRequest)
    (h : (newRequest c ctx method path body).1 = .ok req) :
    req.basicAuth = some (c.username, c.password)
    ∧ getHeader req.headers "Accept" = some "application/json"
    ∧ (getHeader req.headers "Content-Type" = some "application/json"
        ↔ body.isSome = true) := by
  unfold newRequest at h
  rcases hp : parseURL path with e | rel <;> rw [hp] at h <;> simp at h
  cases body with
  | none =>
    simp at h
    subst h
    refine ⟨rfl, rfl, ?_⟩
    simp [getHeader, setHeader]
  | some b =>
    simp at h
    subst h
    refine ⟨rfl, ?_, ?_⟩
    · simp [getHeader, setHeader]
    · simp [getHeader, setHeader]

/-- The concrete request `newRequest` builds in the C5 witness. -/
def reqW : HTTPRequest :=
  ⟨"GET", ⟨"https", "h.example", "/api/Devices", "", ""⟩,
   [("Accept", "application/json")], some ("u", "p"), none, ctxW⟩

theorem C5_request_headers_witness :
    (newRequest cW ctxW "GET" "api/Devices" none).1 = .ok reqW
    ∧ (reqW.basicAuth = some (cW.username, cW.password)
      ∧ getHeader reqW.headers "Accept" = some "application/json"
      ∧ (getHeader reqW.headers "Content-Type" = some "application/json"
          ↔ (none : Option String).isSome = true)) :=
  ⟨rfl, C5_request_headers cW ctxW "GET" "api/Devices" none reqW rfl⟩

/-- C6: the base-URL option silently keeps the previous base URL when the
string fails to parse (no error surfaces), replaces it when it parses,
and with only a malformed override the constructed client keeps the
default production endpoint. -/
theorem C6_with_base_url (c : Client) (s : String) :
    (∀ e, parseURL s = .error e → applyOption c (.withBaseURL s) = c)
    ∧ (∀ u, parseURL s = .ok u →
        applyOption c (.withBaseURL s) = { c with baseURL := u })
    ∧ (∀ uname pw e, uname ≠ "" → parseURL s = .error e →
        NewClient uname pw [.withBaseURL s]
          = .ok { httpClient := some { timeout := defaultTimeout }
                  baseURL := defaultBaseURLParsed
                  username := uname, password := pw }) := by
  refine ⟨?_, ?_, ?_⟩
  · intro e he
    simp [applyOption, he]
  · intro u hu
    simp [applyOption, hu]
  · intro uname pw e hne he
    simp [NewClient, hne, applyOption, he, initClient]

theorem C6_with_base_url_witness :
    applyOption cW (.withBaseURL ":") = cW
    ∧ applyOption cW (.withBaseURL "https://example.org/v1")
        = { cW with baseURL := ⟨"https", "example.org", "/v1", "", ""⟩ }
    ∧ NewClient "user" "pw" [.withBaseURL ":"]
        = .ok { httpClient := some { timeout := defaultTimeout }
                baseURL := defaultBaseURLParsed
                username := "user", password := "pw" } :=
  ⟨(C6_with_base_url cW ":").1 "missing protocol scheme" rfl,
   (C6_with_base_url cW "https://example.org/v1").2.1
     ⟨"https", "example.org", "/v1", "", ""⟩ rfl,
   (C6_with_base_url cW ":").2.2 "user" "pw" "missing protocol scheme"
     (by decide) rfl⟩

/-- C7: when the transport send fails, the operation returns the
context's error when the context is done at that moment, and otherwise
the transport error unmodified — for all four operations. -/
theorem C7_context_error (c : Client) (ctx : GoContext) (e : String)
    (dID : String) (d sd ed : GoTime)
    (decD : String → Except String (List Device))
    (decV : String → Except String DeviceValues)
    (decP : String → Except String Value)
    (decM : String → Except String (List Value))
    (hne : dID ≠ "")
    (hsafe : dID.data.all idSafe = true) :
    (GetDevices c ctx (fun _ => .failure e) decD).1
        = .error (if ctx.done then ctx.ctxErr else e)
    ∧ (GetValues c ctx dID (fun _ => .failure e) decV).1
        = .error (if ctx.done then ctx.ctxErr else e)
    ∧ (GetValuesInPast c ctx dID d (fun _ => .failure e) decP).1
        = .error (if ctx.done then ctx.ctxErr else e)
    ∧ (GetValuesInPastMultiple c ctx dID sd ed (fun _ => .failure e)
        decM).1
        = .error (if ctx.done then ctx.ctxErr else e) := by
  refine ⟨?_, ?_, ?_, ?_⟩
  · have h1 := newRequest_build c ctx "GET" getDevicesPath
      ⟨"", "", "api/Devices", "", ""⟩ rfl rfl rfl (by decide)
    simp only [GetDevices, h1]
    rw [clientDo_failure _ _ _ e rfl]
  · have h1 := newRequest_getValues c ctx dID hsafe
    simp only [GetValues, if_neg hne, h1]
    rw [clientDo_failure _ _ _ e rfl]
  · have h1 := newRequest_getValuesInPast c ctx dID d hsafe
    simp only [GetValuesInPast, if_neg hne, h1]
    rw [clientDo_failure _ _ _ e rfl]
  · have h1 := newRequest_getValuesInPastMultiple c ctx dID sd ed hsafe
    simp only [GetValuesInPastMultiple, if_neg hne, h1]
    rw [clientDo_failure _ _ _ e rfl]

theorem C7_context_error_witness :
    ("dev1" ≠ "" ∧ "dev1".data.all idSafe = true)
    ∧ (GetValues cW ctxDoneW "dev1" (fun _ => .failure "connection reset")
        (fun _ => .error "never")).1 = .error "context canceled"
    ∧ (GetValues cW ctxW "dev1" (fun _ => .failure "connection reset")
        (fun _ => .error "never")).1 = .error "connection reset" :=
  ⟨⟨by decide, by decide⟩,
   (C7_context_error cW ctxDoneW "connection reset" "dev1" tW tW tW
     (fun _ => .error "never") (fun _ => .error "never")
     (fun _ => .error "never") (fun _ => .error "never")
     (by decide) (by decide)).2.1,
   (C7_context_error cW ctxW "connection reset" "dev1" tW tW tW
     (fun _ => .error "never") (fun _ => .error "never")
     (fun _ => .error "never") (fun _ => .error "never")
     (by decide) (by decide)).2.1⟩

/-- C8: with a non-empty username construction succeeds; when the options
left no transport configured the client gets one with a timeout of
exactly 10 seconds, and when the options did configure one it is kept
with no default created. -/
theorem C8_default_transport (u p : String) (opts : List COption)
    (hne : u ≠ "") :
    ∃ c, NewClient u p opts = .ok c
      ∧ ((opts.foldl applyOption (initClient u p)).httpClient = none →
          c.httpClient = some { timeout := 10 * timeSecond })
      ∧ (∀ hc, (opts.foldl applyOption (initClient u p)).httpClient
            = some hc → c.httpClient = some hc) := by
  unfold NewClient
  rw [if_neg hne]
  refine ⟨_, rfl, ?_, ?_⟩
  · intro hnone
    simp [hnone, defaultTimeout]
  · intro hc hsome
    simp [hsome]

theorem C8_default_transport_witness :
    "user" ≠ ""
    ∧ ∃ c, NewClient "user" "" [] = .ok c
      ∧ ((([] : List COption).foldl applyOption
            (initClient "user" "")).httpClient = none →
          c.httpClient = some { timeout := 10 * timeSecond })
      ∧ (∀ hc, (([] : List COption).foldl applyOption
            (initClient "user" "")).httpClient = some hc →
          c.httpClient = some hc) :=
  ⟨by decide, C8_default_transport "user" "" [] (by decide)⟩

theorem snd_eq_of_run {α : Type} {p : Except String α × Client}
    {r : Except String α} {c1 c : Client}
    (hp : p = (r, c1)) (hs : p.2 = c) : c1 = c := by
  rw [hp] at hs
  exact hs

/-- C9: no API operation changes any field of the client: whatever the
transport, decoder and arguments, the client threaded through the call
comes back equal to the one passed in. -/
theorem C9_client_unchanged (c : Client) (ctx : GoContext) (dID : String)
    (d sd ed : GoTime) (t1 t2 t3 t4 : Transport)
    (decD : String → Except String (List Device))
    (decV : String → Except String DeviceValues)
    (decP : String → Except String Value)
    (decM : String → Except String (List Value)) :
    (GetDevices c ctx t1 decD).2 = c
    ∧ (GetValues c ctx dID t2 decV).2 = c
    ∧ (GetValuesInPast c ctx dID d t3 decP).2 = c
    ∧ (GetValuesInPastMultiple c ctx dID sd ed t4 decM).2 = c := by
  refine ⟨?_, ?_, ?_, ?_⟩
  · unfold GetDevices
    split
    · rename_i e c1 heq
      exact snd_eq_of_run heq (newRequest_snd c ctx "GET" getDevicesPath none)
    · rename_i req c1 heq
      have hc1 : c1 = c :=
        snd_eq_of_run heq (newRequest_snd c ctx "GET" getDevicesPath none)
      subst hc1
      split
      · rename_i e2 c2 heq2
        exact snd_eq_of_run heq2 (clientDo_snd c1 req t1 (some decD))
      · rename_i v c2 heq2
        exact snd_eq_of_run heq2 (clientDo_snd c1 req t1 (some decD))
  · unfold GetValues
    split
    · rfl
    · split
      · rename_i e c1 heq
        exact snd_eq_of_run heq
          (newRequest_snd c ctx "GET" (getValuesPath dID) none)
      · rename_i req c1 heq
        have hc1 : c1 = c :=
          snd_eq_of_run heq
            (newRequest_snd c ctx "GET" (getValuesPath dID) none)
        subst hc1
        split
        · rename_i e2 c2 heq2
          exact snd_eq_of_run heq2 (clientDo_snd c1 req t2 (some decV))
        · rename_i v c2 heq2
          exact snd_eq_of_run heq2 (clientDo_snd c1 req t2 (some decV))
  · unfold GetValuesInPast
    split
    · rfl
    · split
      · rename_i e c1 heq
        exact snd_eq_of_run heq
          (newRequest_snd c ctx "GET" (getValuesInPastPath dID d) none)
      · rename_i req c1 heq
        have hc1 : c1 = c :=
          snd_eq_of_run heq
            (newRequest_snd c ctx "GET" (getValuesInPastPath dID d) none)
        subst hc1
        split
        · rename_i e2 c2 heq2
          exact snd_eq_of_run heq2 (clientDo_snd c1 req t3 (some decP))
        · rename_i v c2 heq2
          exact snd_eq_of_run heq2 (clientDo_snd c1 req t3 (some decP))
  · unfold GetValuesInPastMultiple
    split
    · rfl
    · split
      · rename_i e c1 heq
        exact snd_eq_of_run heq (newRequest_snd c ctx "GET"
          (getValuesInPastMultiplePath dID sd ed) none)
      · rename_i req c1 heq
        have hc1 : c1 = c :=
          snd_eq_of_run heq (newRequest_snd c ctx "GET"
            (getValuesInPastMultiplePath dID sd ed) none)
        subst hc1
        split
        · rename_i e2 c2 heq2
          exact snd_eq_of_run heq2 (clientDo_snd c1 req t4 (some decM))
        · rename_i v c2 heq2
          exact snd_eq_of_run heq2 (clientDo_snd c1 req t4 (some decM))

/-- C10: the device identifier is interpolated into the path raw, with no
URL escaping; an identifier containing `?` changes the structure of the
resulting URL: everything after the first `?` of the identifier becomes
the raw query of the built request instead of being percent-encoded or
rejected. -/
theorem C10_raw_interpolation (c : Client) (ctx : GoContext) (a b : String)
    (ha : a.data.all idSafe = true) (hb : b.data.all noCtlHash = true) :
    getValuesPath (a ++ "?" ++ b) = "api/Values/" ++ (a ++ "?" ++ b)
    ∧ parseURL (getValuesPath (a ++ "?" ++ b))
        = .ok ⟨"", "", "api/Values/" ++ a, b, ""⟩
    ∧ (∃ req, (newRequest c ctx "GET" (getValuesPath (a ++ "?" ++ b))
          none).1 = .ok req ∧ req.url.query = b) := by
  have hp : parseURL (getValuesPath (a ++ "?" ++ b))
      = .ok ⟨"", "", ⟨"api/Values/".data ++ a.data⟩, ⟨b.data⟩, ""⟩ := by
    apply parseURL_split
    · have hq : "?".data = ['?'] := rfl
      simp [getValuesPath, String.data_append, hq, List.append_assoc]
    · rw [List.all_append, ha]
      simp
      decide
    · exact ⟨"Values/".data ++ a.data, rfl⟩
    · exact hb
  refine ⟨rfl, hp, ?_⟩
  have hn := newRequest_build c ctx "GET" (getValuesPath (a ++ "?" ++ b))
    _ hp rfl rfl (by simp [String.ext_iff])
  exact ⟨_, by rw [hn], rfl⟩

theorem C10_raw_interpolation_witness :
    ("dev".data.all idSafe = true
      ∧ "x=1&y=2".data.all noCtlHash = true)
    ∧ (∃ req, (newRequest cW ctxW "GET"
          (getValuesPath ("dev" ++ "?" ++ "x=1&y=2")) none).1 = .ok req
        ∧ req.url.query = "x=1&y=2") :=
  ⟨⟨by decide, by decide⟩,
   (C10_raw_interpolation cW ctxW "dev" "x=1&y=2"
     (by decide) (by decide)).2.2⟩

example : formatRFC3339 ⟨2025, 1, 2, 3, 4, 5, 0⟩ = "2025-01-02T03:04:05Z" := by decide

example :
    formatRFC3339 ⟨2024, 12, 31, 23, 59, 58, 90⟩
      = "2024-12-31T23:59:58+01:30" := by decide

end SmartMe
